import Mathlib

/-!
Verification of the WITNESS forest module.

Sources embedded here:
* climateeconomics/sos_wrapping/sos_wrapping_agriculture/forest/forest_disc.py
  (the discipline wrapper: output scaling in run, and the Jacobian wiring of
  compute_sos_jacobian);
* climateeconomics/sos_processes/iam/witness/agriculture_mix_process/usecase.py
  (study constants).

The core model climateeconomics/core/core_forest/forest_v2.py (class Forest)
is not among the source files, only its caller forest_disc.py is; where a
claim depends on it, the corresponding definitions are modelled from the
specification and carry a doc comment saying so.
-/

namespace WitnessForest

/-- A year-indexed series of rational values; index 0 is year_start. -/
abbrev Series := ℕ → ℚ

/-- A dense Jacobian matrix indexed by (output year, input year). -/
abbrev Jac := ℕ → ℕ → ℚ

/-- construction_delay = 3 years, from forest_disc.py line 57. -/
def construction_delay : ℕ := 3

/-- The investment column of invest_before_year_start, from forest_disc.py
lines 139-140: three past years each with investment 1.135081. -/
def invest_before_year_start : List ℚ :=
  [1135081 / 1000000, 1135081 / 1000000, 1135081 / 1000000]

/-- Physical and economic constants of the forest model.  The defaults in
forest_disc.py DESC_IN give cDef = 8000 ($/ha, deforestation), cRef = 13800,
cMw = 13047 (wood_techno_dict), co2PerHa = 4000, sfProd = sfCons = 1000. -/
structure Params where
  U0 : ℚ        -- initial unmanaged forest surface
  P0 : ℚ        -- protected forest surface (constant)
  M0 : ℚ        -- initial managed wood surface
  cDef : ℚ      -- deforestation cost per hectare
  cRef : ℚ      -- reforestation cost per hectare
  cMw : ℚ       -- managed wood price per hectare
  delay : ℕ     -- construction delay in years
  co2PerHa : ℚ  -- CO2 factor per hectare
  rhoMw : ℚ     -- biomass mass per hectare of managed wood harvested
  rhoDef : ℚ    -- biomass mass per hectare deforested
  calVal : ℚ    -- calorific value, mass to energy
  co2Ratio : ℚ  -- CO2 consumed per unit of energy produced
  sfProd : ℚ    -- scaling_factor_techno_production
  sfCons : ℚ    -- scaling_factor_techno_consumption
  defaultPrice : ℚ  -- price fallback for a zero-mass first year
  priceMw : ℚ   -- unit price of managed wood biomass
  priceDef : ℚ  -- unit price of deforestation biomass
  transport : ℚ -- transport cost term
  margin : ℚ    -- margin term
  lcDefCap : ℚ  -- lost capital scaling, deforestation
  lcRefCap : ℚ  -- lost capital scaling, reforestation
  lcMwCap : ℚ   -- lost capital scaling, managed wood

/-- The full input series of one invocation: the three investment series and
the pre-horizon managed wood investment history. -/
structure Inputs where
  invDef : Series
  invRef : Series
  invMw : Series
  prehist : Series

/-- Modelled from the spec: cumulative deforestation demand in surface terms,
the running sum of yearly investment divided by the per-hectare cost
(forest_v2.Forest is missing from the sources; spec sections 4.2 and 8). -/
def cumDemand (inv : Series) (c : ℚ) (t : ℕ) : ℚ :=
  (Finset.range (t + 1)).sum (fun k => inv k / c)

/-- Modelled from the spec: cumulative deforested surface, the cumulative
demand saturated at the initial unmanaged stock (forest_v2.Forest is missing
from the sources; spec section 4.2, monotonic saturation). -/
def defCum (p : Params) (x : Inputs) (t : ℕ) : ℚ :=
  min (cumDemand x.invDef p.cDef t) p.U0

/-- Modelled from the spec: yearly deforested surface delta (forest_v2.Forest
is missing from the sources). -/
def deltaDef (p : Params) (x : Inputs) : ℕ → ℚ
  | 0 => defCum p x 0
  | t + 1 => defCum p x (t + 1) - defCum p x t

/-- Modelled from the spec: cumulative reforested surface, investment divided
by the per-hectare reforestation cost, accumulated (forest_v2.Forest is
missing from the sources; spec section 4.2). -/
def refCum (p : Params) (x : Inputs) (t : ℕ) : ℚ :=
  cumDemand x.invRef p.cRef t

/-- Modelled from the spec: yearly managed wood surface delta; the first
delay years are driven by the pre-horizon investment history, later years by
the investment committed delay years earlier (forest_v2.Forest is missing
from the sources; spec section 4.4). -/
def mwDelta (p : Params) (x : Inputs) (y : ℕ) : ℚ :=
  (if y < p.delay then x.prehist y else x.invMw (y - p.delay)) / p.cMw

/-- Modelled from the spec: cumulative managed wood surface (forest_v2.Forest
is missing from the sources). -/
def mwCum (p : Params) (x : Inputs) (t : ℕ) : ℚ :=
  p.M0 + (Finset.range (t + 1)).sum (fun k => mwDelta p x k)

/-- Modelled from the spec: remaining unmanaged forest, the initial stock
minus the cumulative deforested surface (forest_v2.Forest is missing from the
sources; spec section 4.2, deforestation depletes unmanaged forest first). -/
def unmanagedForest (p : Params) (x : Inputs) (t : ℕ) : ℚ :=
  p.U0 - defCum p x t

/-- Per-year surface stocks of the sequential state machine. -/
structure SurfaceState where
  deforested : ℚ
  reforested : ℚ
  managedWood : ℚ
  unmanagedArea : ℚ
  protectedArea : ℚ
  globalArea : ℚ

/-- Modelled from the spec: the state before the first simulated year
(forest_v2.Forest is missing from the sources; spec section 4.2, seeded from
externally supplied initial stocks). -/
def initState (p : Params) : SurfaceState :=
  { deforested := 0
    reforested := 0
    managedWood := p.M0
    unmanagedArea := p.U0
    protectedArea := p.P0
    globalArea := p.U0 + p.P0 + p.M0 }

/-- Modelled from the spec: one year of the sequential surface state machine.
Deforestation takes at most the remaining unmanaged stock; reforestation and
managed wood accumulate; the global surface accumulates the category deltas
(forest_v2.Forest is missing from the sources; spec section 4.2). -/
def stepState (p : Params) (x : Inputs) (t : ℕ) (s : SurfaceState) : SurfaceState :=
  let dDef := min s.unmanagedArea (x.invDef t / p.cDef)
  let dRef := x.invRef t / p.cRef
  let dMw := mwDelta p x t
  { deforested := s.deforested + dDef
    reforested := s.reforested + dRef
    managedWood := s.managedWood + dMw
    unmanagedArea := s.unmanagedArea - dDef
    protectedArea := s.protectedArea
    globalArea := s.globalArea + (-dDef + dMw + dRef - dDef) }

/-- The state after processing years 0..t. -/
def surfaceAt (p : Params) (x : Inputs) : ℕ → SurfaceState
  | 0 => stepState p x 0 (initState p)
  | t + 1 => stepState p x (t + 1) (surfaceAt p x t)

theorem cumDemand_mono (inv : Series) (c : ℚ) (hc : 0 < c)
    (hinv : ∀ k, 0 ≤ inv k) {s t : ℕ} (hst : s ≤ t) :
    cumDemand inv c s ≤ cumDemand inv c t := by
  unfold cumDemand
  apply Finset.sum_le_sum_of_subset_of_nonneg
  · exact Finset.range_subset.mpr (by omega)
  · intro k _ _
    exact div_nonneg (hinv k) hc.le

theorem cumDemand_succ (inv : Series) (c : ℚ) (t : ℕ) :
    cumDemand inv c (t + 1) = cumDemand inv c t + inv (t + 1) / c := by
  unfold cumDemand
  rw [Finset.sum_range_succ]

/-- The greedy per-year state machine computes exactly the saturated
cumulative demand, for nonnegative investments. -/
theorem surfaceAt_deforested_eq (p : Params) (x : Inputs) (hc : 0 < p.cDef)
    (hinv : ∀ k, 0 ≤ x.invDef k) (t : ℕ) :
    (surfaceAt p x t).deforested = defCum p x t ∧
      (surfaceAt p x t).unmanagedArea = p.U0 - defCum p x t := by
  induction t with
  | zero =>
    simp only [surfaceAt, stepState, initState, defCum, cumDemand, zero_add,
      Finset.sum_range_one]
    constructor
    · rw [min_comm]
    · rw [min_comm]
  | succ t ih =>
    obtain ⟨ihD, ihU⟩ := ih
    have hkey : defCum p x (t + 1) =
        defCum p x t + min (p.U0 - defCum p x t) (x.invDef (t + 1) / p.cDef) := by
      have hd : 0 ≤ x.invDef (t + 1) / p.cDef := div_nonneg (hinv _) hc.le
      unfold defCum
      rw [cumDemand_succ]
      set S := cumDemand x.invDef p.cDef t with hS
      set d := x.invDef (t + 1) / p.cDef with hdd
      rcases le_total S p.U0 with h1 | h1
      · rw [min_eq_left h1]
        rcases le_total d (p.U0 - S) with h2 | h2
        · rw [min_eq_right h2, min_eq_left (by linarith)]
        · rw [min_eq_left h2, min_eq_right (by linarith)]; ring
      · rw [min_eq_right h1]
        have h0 : min (p.U0 - min S p.U0) d = 0 := by
          rw [min_eq_right h1]
          simp only [sub_self]
          exact min_eq_left hd
        rw [min_eq_right h1] at *
        rw [min_eq_right (by linarith)]
        simp only [sub_self]
        rw [min_eq_left hd]
        ring
    constructor
    · show (stepState p x (t + 1) (surfaceAt p x t)).deforested = _
      simp only [stepState, ihD, ihU]
      linarith [hkey]
    · show (stepState p x (t + 1) (surfaceAt p x t)).unmanagedArea = _
      simp only [stepState, ihD, ihU]
      linarith [hkey]

/-- The everywhere-zero Jacobian. -/
def zeroJac : Jac := fun _ _ => 0

/-- Entrywise sum of two Jacobians (the + of compute_sos_jacobian). -/
def addJac (J K : Jac) : Jac := fun o i => J o i + K o i

/-- Scalar multiple of a Jacobian. -/
def smulJac (a : ℚ) (J : Jac) : Jac := fun o i => a * J o i

/-- Entrywise division by a scalar, mirroring the divisions by the scaling
factors in compute_sos_jacobian (forest_disc.py lines 397-426). -/
def divJac (J : Jac) (s : ℚ) : Jac := fun o i => J o i / s

/-- Row-dependent diagonal weighting, as produced by quotient-rule price
derivatives. -/
def diagWeight (w : ℕ → ℚ) (J : Jac) : Jac := fun o i => w o * J o i

/-- Constant diagonal Jacobian. -/
def diagJac (c : ℚ) : Jac := fun o i => if i = o then c else 0

/-- Diagonal shifted down by the construction delay: output year i + d
depends on input year i. -/
def shiftDiag (d : ℕ) (c : ℚ) : Jac := fun o i => if i + d = o then c else 0

/-- Modelled from the spec: Forest.d_cum, composition with the running-sum
lower-triangular-ones operator (forest_v2.Forest is missing from the sources;
spec section 4.3). -/
def d_cum (J : Jac) : Jac := fun o i => (Finset.range (o + 1)).sum (fun k => J k i)

/-- The causality invariant: entry (y_out, y_in) vanishes when y_in is in the
future of y_out. -/
def LowerTri (J : Jac) : Prop := ∀ o i, o < i → J o i = 0

theorem lowerTri_zero : LowerTri zeroJac := fun _ _ _ => rfl

theorem lowerTri_add {J K : Jac} (hJ : LowerTri J) (hK : LowerTri K) :
    LowerTri (addJac J K) := by
  intro o i h
  simp [addJac, hJ o i h, hK o i h]

theorem lowerTri_smul (a : ℚ) {J : Jac} (hJ : LowerTri J) :
    LowerTri (smulJac a J) := by
  intro o i h
  simp [smulJac, hJ o i h]

theorem lowerTri_div (s : ℚ) {J : Jac} (hJ : LowerTri J) :
    LowerTri (divJac J s) := by
  intro o i h
  simp [divJac, hJ o i h]

theorem lowerTri_diagWeight (w : ℕ → ℚ) {J : Jac} (hJ : LowerTri J) :
    LowerTri (diagWeight w J) := by
  intro o i h
  simp [diagWeight, hJ o i h]

theorem lowerTri_diag (c : ℚ) : LowerTri (diagJac c) := by
  intro o i h
  simp only [diagJac, ite_eq_right_iff]
  intro he
  omega

theorem lowerTri_shiftDiag (d : ℕ) (c : ℚ) : LowerTri (shiftDiag d c) := by
  intro o i h
  simp only [shiftDiag, ite_eq_right_iff]
  intro he
  omega

theorem lowerTri_d_cum {J : Jac} (hJ : LowerTri J) : LowerTri (d_cum J) := by
  intro o i h
  unfold d_cum
  apply Finset.sum_eq_zero
  intro k hk
  have hk2 : k < o + 1 := Finset.mem_range.mp hk
  exact hJ k i (by omega)

/-- Modelled from the spec: exact derivative of the saturated cumulative
deforested surface with respect to the deforestation investment; the entry is
the constant per-hectare sensitivity below the saturation boundary and zero
elsewhere (forest_v2.Forest is missing from the sources; spec sections 4.2
and 9). -/
def dDefCumJac (p : Params) (x : Inputs) : Jac := fun o i =>
  if i ≤ o ∧ cumDemand x.invDef p.cDef o < p.U0 then 1 / p.cDef else 0

/-- Modelled from the spec: derivative of the yearly deforested surface delta
with respect to the deforestation investment, with the year-dependent
correction at the year where cumulative consumption crosses the floor
(forest_v2.Forest is missing from the sources; spec sections 4.2 and 9). -/
def dDeltaDefJac (p : Params) (x : Inputs) : Jac := fun o i =>
  if cumDemand x.invDef p.cDef o < p.U0 then (if i = o then 1 / p.cDef else 0)
  else
    match o with
    | 0 => 0
    | s + 1 => if cumDemand x.invDef p.cDef s < p.U0 ∧ i ≤ s then -(1 / p.cDef) else 0

theorem lowerTri_dDefCumJac (p : Params) (x : Inputs) : LowerTri (dDefCumJac p x) := by
  intro o i h
  simp only [dDefCumJac, ite_eq_right_iff, and_imp]
  intro h1
  omega

theorem lowerTri_dDeltaDefJac (p : Params) (x : Inputs) : LowerTri (dDeltaDefJac p x) := by
  intro o i h
  unfold dDeltaDefJac
  by_cases h1 : cumDemand x.invDef p.cDef o < p.U0
  · simp only [if_pos h1, ite_eq_right_iff]
    intro he
    omega
  · simp only [if_neg h1]
    match o with
    | 0 => rfl
    | s + 1 =>
      simp only [ite_eq_right_iff, and_imp]
      intro _ h2
      omega

/-- The running sum of the delta derivative telescopes to the exact
derivative of the saturated cumulative surface. -/
theorem d_cum_dDeltaDefJac (p : Params) (x : Inputs) (hc : 0 < p.cDef)
    (hinv : ∀ k, 0 ≤ x.invDef k) :
    d_cum (dDeltaDefJac p x) = dDefCumJac p x := by
  funext o i
  induction o with
  | zero =>
    simp only [d_cum, zero_add, Finset.sum_range_one, dDeltaDefJac, dDefCumJac]
    by_cases h1 : cumDemand x.invDef p.cDef 0 < p.U0
    · simp only [if_pos h1, Nat.le_zero]
      by_cases h2 : i = 0
      · simp [h2, h1]
      · simp [h2]
    · simp [h1]
  | succ o ih =>
    have hstep : d_cum (dDeltaDefJac p x) (o + 1) i =
        d_cum (dDeltaDefJac p x) o i + dDeltaDefJac p x (o + 1) i := by
      simp [d_cum, Finset.sum_range_succ]
    rw [hstep, ih]
    by_cases h1 : cumDemand x.invDef p.cDef (o + 1) < p.U0
    · have h0 : cumDemand x.invDef p.cDef o < p.U0 :=
        lt_of_le_of_lt (cumDemand_mono x.invDef p.cDef hc hinv (by omega)) h1
      simp only [dDefCumJac, dDeltaDefJac, if_pos h1, if_pos h0]
      by_cases h2 : i ≤ o
      · have h3 : i ≠ o + 1 := by omega
        have h6 : i ≤ o + 1 := by omega
        simp [h2, h3, h0, h1, h6]
      · by_cases h4 : i = o + 1
        · simp [h2, h4, h1]
        · have h5 : ¬ i ≤ o + 1 := by omega
          simp [h2, h4, h5]
    · simp only [dDefCumJac, dDeltaDefJac, if_neg h1]
      have hgoal : ¬ (i ≤ o + 1 ∧ cumDemand x.invDef p.cDef (o + 1) < p.U0) := by
        intro hcon
        exact h1 hcon.2
      rw [if_neg hgoal]
      by_cases h0 : cumDemand x.invDef p.cDef o < p.U0
      · by_cases h2 : i ≤ o
        · simp [h0, h2]
        · simp [h0, h2]
      · have hgoal2 : ¬ (i ≤ o ∧ cumDemand x.invDef p.cDef o < p.U0) := by
          intro hcon
          exact h0 hcon.2
        simp [hgoal2, h0]

/-- Modelled from the spec: Forest.compute_d_deforestation_surface_d_invest,
the pre-limit per-year surface sensitivity (forest_v2.Forest is missing from
the sources). -/
def d_deforestation_surface_d_invest (p : Params) : Jac := diagJac (1 / p.cDef)

/-- Modelled from the spec: Forest.compute_d_reforestation_surface_d_invest
(forest_v2.Forest is missing from the sources). -/
def d_reforestation_surface_d_invest (p : Params) : Jac := diagJac (1 / p.cRef)

/-- Modelled from the spec: Forest.compute_d_mw_surface_d_invest, the
shifted-diagonal sensitivity with the construction delay (forest_v2.Forest is
missing from the sources; spec section 4.4). -/
def d_mw_surface_d_invest (p : Params) : Jac := shiftDiag p.delay (1 / p.cMw)

/-- The three raw investment inputs of the discipline. -/
inductive InKey where
  | defInvest
  | refInvest
  | mwInvest
deriving DecidableEq

/-- Modelled from the spec: the d_cum_umw outputs of the three
compute_d_limit_surfaces calls in forest_disc.py lines 313-318; unmanaged
forest reacts only to deforestation (forest_v2.Forest is missing from the
sources). -/
def d_cum_umw_d (p : Params) (x : Inputs) : InKey → Jac
  | InKey.defInvest => smulJac (-1) (dDefCumJac p x)
  | InKey.refInvest => zeroJac
  | InKey.mwInvest => zeroJac

/-- Modelled from the spec: the d_delta_mw outputs of the three
compute_d_limit_surfaces calls (forest_v2.Forest is missing from the
sources). -/
def d_delta_mw_d (p : Params) (_x : Inputs) : InKey → Jac
  | InKey.defInvest => zeroJac
  | InKey.refInvest => zeroJac
  | InKey.mwInvest => d_mw_surface_d_invest p

/-- Modelled from the spec: the d_delta_deforestation outputs of the three
compute_d_limit_surfaces calls (forest_v2.Forest is missing from the
sources). -/
def d_delta_deforestation_d (p : Params) (x : Inputs) : InKey → Jac
  | InKey.defInvest => dDeltaDefJac p x
  | InKey.refInvest => zeroJac
  | InKey.mwInvest => zeroJac

/-- Modelled from the spec: lost-capital sensitivity of the deforestation
activity (forest_v2.Forest is missing from the sources; spec section 4.6). -/
def d_lc_deforestation_d (p : Params) (x : Inputs) : InKey → Jac
  | InKey.defInvest => smulJac p.lcDefCap (dDeltaDefJac p x)
  | InKey.refInvest => zeroJac
  | InKey.mwInvest => zeroJac

/-- Modelled from the spec: lost-capital sensitivity of the reforestation
activity (forest_v2.Forest is missing from the sources; spec section 4.6). -/
def d_lc_reforestation_d (p : Params) (x : Inputs) : InKey → Jac
  | InKey.defInvest => smulJac p.lcRefCap (dDefCumJac p x)
  | InKey.refInvest => smulJac p.lcRefCap (d_cum (d_reforestation_surface_d_invest p))
  | InKey.mwInvest => zeroJac

/-- Modelled from the spec: lost-capital sensitivity of the managed wood
activity (forest_v2.Forest is missing from the sources; spec section 4.6). -/
def d_lc_mw_d (p : Params) (x : Inputs) : InKey → Jac
  | InKey.defInvest => smulJac p.lcMwCap (dDefCumJac p x)
  | InKey.refInvest => zeroJac
  | InKey.mwInvest => smulJac p.lcMwCap (d_cum (d_mw_surface_d_invest p))

/-- Cumulated managed wood surface sensitivity, forest_disc.py lines 320-336:
d_cum applied to the delta sensitivity. -/
def d_cum_mw_surface_d (p : Params) (x : Inputs) (i : InKey) : Jac :=
  d_cum (d_delta_mw_d p x i)

/-- Cumulated deforestation surface sensitivity, forest_disc.py lines
320-336. -/
def d_cum_deforestation_surface_d (p : Params) (x : Inputs) (i : InKey) : Jac :=
  d_cum (d_delta_deforestation_d p x i)

/-- Cumulated reforestation surface sensitivity, forest_disc.py lines
330-331. -/
def d_cum_reforestation_surface_d_reforestation_invest (p : Params) : Jac :=
  d_cum (d_reforestation_surface_d_invest p)

/-- Forest constraint sensitivity, forest_disc.py lines 347-361: cumulated
deforestation surface, plus cumulated reforestation surface for the
reforestation input. -/
def d_forest_constraint_d (p : Params) (x : Inputs) : InKey → Jac
  | InKey.defInvest => d_cum_deforestation_surface_d p x InKey.defInvest
  | InKey.refInvest =>
      addJac (d_cum_deforestation_surface_d p x InKey.refInvest)
        (d_cum_reforestation_surface_d_reforestation_invest p)
  | InKey.mwInvest => d_cum_deforestation_surface_d p x InKey.mwInvest

/-- Modelled from the spec: Forest.compute_d_CO2_land_emission scales an
already-cumulative surface sensitivity by the CO2-per-hectare factor
(forest_v2.Forest is missing from the sources; spec section 4.3). -/
def compute_d_CO2_land_emission (p : Params) (J : Jac) : Jac :=
  smulJac p.co2PerHa J

/-- Modelled from the spec: Forest.compute_d_techno_prod_d_invest combines
the managed wood and deforestation surface delta sensitivities with the mass
and calorific constants (forest_v2.Forest is missing from the sources; spec
section 4.4). -/
def compute_d_techno_prod_d_invest (p : Params) (Jmw Jdef : Jac) : Jac :=
  addJac (smulJac (p.calVal * p.rhoMw) Jmw) (smulJac (p.calVal * p.rhoDef) Jdef)

/-- Modelled from the spec: Forest.compute_d_techno_conso_d_invest, the CO2
consumption proportional to production (forest_v2.Forest is missing from the
sources). -/
def compute_d_techno_conso_d_invest (p : Params) (J : Jac) : Jac :=
  smulJac p.co2Ratio J

/-- Modelled from the spec: yearly total biomass mass from managed wood and
deforestation (forest_v2.Forest is missing from the sources; spec sections
4.4 and 4.5). -/
def totalMass (p : Params) (x : Inputs) (y : ℕ) : ℚ :=
  p.rhoMw * mwDelta p x y + p.rhoDef * deltaDef p x y

/-- Modelled from the spec: managed wood weighting share of the quotient-rule
price derivative, zero-guarded (forest_v2.Forest is missing from the
sources; spec section 4.5). -/
def wPriceMw (p : Params) (x : Inputs) (o : ℕ) : ℚ :=
  if totalMass p x o = 0 then 0 else p.priceMw * p.rhoMw / totalMass p x o

/-- Modelled from the spec: deforestation weighting share of the
quotient-rule price derivative, zero-guarded (forest_v2.Forest is missing
from the sources; spec section 4.5). -/
def wPriceDef (p : Params) (x : Inputs) (o : ℕ) : ℚ :=
  if totalMass p x o = 0 then 0 else p.priceDef * p.rhoDef / totalMass p x o

/-- Modelled from the spec: Forest.compute_d_techno_price_d_invest, the
quotient-rule combination of the production sensitivities with the forward
weighting shares (forest_v2.Forest is missing from the sources; spec section
4.5). -/
def compute_d_techno_price_d_invest (p : Params) (x : Inputs) (Jmw Jdef : Jac) : Jac :=
  addJac (diagWeight (wPriceMw p x) Jmw) (diagWeight (wPriceDef p x) Jdef)

/-- Modelled from the spec: biomass energy production in TWh before scaling
(forest_v2.Forest is missing from the sources; spec section 4.4). -/
def technoProductionModel (p : Params) (x : Inputs) (y : ℕ) : ℚ :=
  p.calVal * (p.rhoMw * mwDelta p x y + p.rhoDef * deltaDef p x y)

/-- Modelled from the spec: CO2 consumption proportional to production
before scaling (forest_v2.Forest is missing from the sources). -/
def technoConsumptionModel (p : Params) (x : Inputs) (y : ℕ) : ℚ :=
  p.co2Ratio * technoProductionModel p x y

/-- The stored techno_production output: the model production divided by
scaling_factor_techno_production (forest_disc.py lines 257-264). -/
def storedTechnoProduction (p : Params) (x : Inputs) (y : ℕ) : ℚ :=
  technoProductionModel p x y / p.sfProd

/-- The stored techno_consumption output: the model consumption divided by
scaling_factor_techno_consumption (forest_disc.py lines 265-275). -/
def storedTechnoConsumption (p : Params) (x : Inputs) (y : ℕ) : ℚ :=
  technoConsumptionModel p x y / p.sfCons

/-- The stored techno_consumption_woratio output, scaled like
techno_consumption (forest_disc.py lines 265-275). -/
def storedTechnoConsumptionWoratio (p : Params) (x : Inputs) (y : ℕ) : ℚ :=
  technoConsumptionModel p x y / p.sfCons

/-- Modelled from the spec: biomass mass produced from managed wood in a
year (forest_v2.Forest is missing from the sources; spec sections 3 and
4.4). -/
def mwMass (p : Params) (x : Inputs) (y : ℕ) : ℚ :=
  p.rhoMw * mwDelta p x y

/-- Modelled from the spec: the unit price series; a year with zero total
biomass mass reuses the prior year price, and the first year falls back to
the configured default (forest_v2.Forest is missing from the sources; spec
sections 4.5 and 8, price continuity). -/
def priceSeries (p : Params) (x : Inputs) : ℕ → ℚ
  | 0 =>
      if totalMass p x 0 = 0 then p.defaultPrice
      else
        (p.priceMw * p.rhoMw * mwDelta p x 0 + p.priceDef * p.rhoDef * deltaDef p x 0) /
            totalMass p x 0 + p.transport + p.margin
  | y + 1 =>
      if totalMass p x (y + 1) = 0 then priceSeries p x y
      else
        (p.priceMw * p.rhoMw * mwDelta p x (y + 1) +
            p.priceDef * p.rhoDef * deltaDef p x (y + 1)) /
            totalMass p x (y + 1) + p.transport + p.margin

/-- The (output series, column) pairs for which compute_sos_jacobian
registers a Jacobian (forest_disc.py lines 340-476). -/
inductive OutKey where
  | globalForestSurface
  | forestConstraintEvolution
  | landUseForest
  | co2LandEmission
  | technoProductionBiomass
  | technoConsumptionCO2
  | technoConsumptionWoratioCO2
  | technoPricesForest
  | technoPricesForestWotaxes
  | lostCapitalReforestation
  | lostCapitalDeforestation
  | lostCapitalManagedWood
deriving DecidableEq

/-- The full table of Jacobians registered by compute_sos_jacobian,
mirroring forest_disc.py lines 340-476 entry by entry: the global surface is
the sum of the cumulated managed wood and unmanaged sensitivities; production
and consumption entries are divided by the respective scaling factors; the
woratio consumption and the wotaxes price reuse the very same expressions as
their counterparts. -/
def jacTable (p : Params) (x : Inputs) : OutKey → InKey → Jac
  | OutKey.globalForestSurface, i => addJac (d_cum_mw_surface_d p x i) (d_cum_umw_d p x i)
  | OutKey.forestConstraintEvolution, i => d_forest_constraint_d p x i
  | OutKey.landUseForest, i => d_cum_mw_surface_d p x i
  | OutKey.co2LandEmission, i => compute_d_CO2_land_emission p (d_forest_constraint_d p x i)
  | OutKey.technoProductionBiomass, i =>
      divJac (compute_d_techno_prod_d_invest p (d_delta_mw_d p x i)
        (d_delta_deforestation_d p x i)) p.sfProd
  | OutKey.technoConsumptionCO2, i =>
      divJac (compute_d_techno_conso_d_invest p (compute_d_techno_prod_d_invest p
        (d_delta_mw_d p x i) (d_delta_deforestation_d p x i))) p.sfCons
  | OutKey.technoConsumptionWoratioCO2, i =>
      divJac (compute_d_techno_conso_d_invest p (compute_d_techno_prod_d_invest p
        (d_delta_mw_d p x i) (d_delta_deforestation_d p x i))) p.sfCons
  | OutKey.technoPricesForest, i =>
      compute_d_techno_price_d_invest p x (d_delta_mw_d p x i) (d_delta_deforestation_d p x i)
  | OutKey.technoPricesForestWotaxes, i =>
      compute_d_techno_price_d_invest p x (d_delta_mw_d p x i) (d_delta_deforestation_d p x i)
  | OutKey.lostCapitalReforestation, i => d_lc_reforestation_d p x i
  | OutKey.lostCapitalDeforestation, i => d_lc_deforestation_d p x i
  | OutKey.lostCapitalManagedWood, i => d_lc_mw_d p x i

/-- Everything one invocation of the discipline computes: the forward series
and the full Jacobian table (forest_disc.py run and compute_sos_jacobian). -/
structure RunOutputs where
  surfaces : ℕ → SurfaceState
  production : ℕ → ℚ
  consumption : ℕ → ℚ
  consumptionWoratio : ℕ → ℚ
  priceOut : ℕ → ℚ
  jac : OutKey → InKey → Jac

/-- One invocation: every output is recomputed from the complete input
series; no other state enters. -/
def runModel (p : Params) (x : Inputs) : RunOutputs :=
  { surfaces := surfaceAt p x
    production := storedTechnoProduction p x
    consumption := storedTechnoConsumption p x
    consumptionWoratio := storedTechnoConsumptionWoratio p x
    priceOut := priceSeries p x
    jac := jacTable p x }

/-- All output keys registered by compute_sos_jacobian. -/
def allOutKeys : List OutKey :=
  [OutKey.globalForestSurface, OutKey.forestConstraintEvolution, OutKey.landUseForest,
   OutKey.co2LandEmission, OutKey.technoProductionBiomass, OutKey.technoConsumptionCO2,
   OutKey.technoConsumptionWoratioCO2, OutKey.technoPricesForest,
   OutKey.technoPricesForestWotaxes, OutKey.lostCapitalReforestation,
   OutKey.lostCapitalDeforestation, OutKey.lostCapitalManagedWood]

/-- The three input keys. -/
def allInKeys : List InKey := [InKey.defInvest, InKey.refInvest, InKey.mwInvest]

/-- Every (output, input) pair for which a Jacobian is registered. -/
def allPairs : List (OutKey × InKey) :=
  allOutKeys.flatMap (fun o => allInKeys.map (fun i => (o, i)))

/-- The ordered list of Jacobian registrations one call performs, in source
order. -/
def assignments (p : Params) (x : Inputs) : List ((OutKey × InKey) × Jac) :=
  allPairs.map (fun k => (k, jacTable p x k.1 k.2))

/-- Query the registration list for the Jacobian of an (output, input)
pair. -/
def lookupJac (l : List ((OutKey × InKey) × Jac)) (k : OutKey × InKey) : Option Jac :=
  ((l.filter (fun e => decide (e.1 = k))).head?).map Prod.snd

theorem filter_key_length_le_one {α β : Type} [DecidableEq α] (l : List (α × β))
    (hnd : (l.map Prod.fst).Nodup) (k : α) :
    (l.filter (fun e => decide (e.1 = k))).length ≤ 1 := by
  induction l with
  | nil => simp
  | cons e t ih =>
    simp only [List.map_cons, List.nodup_cons] at hnd
    obtain ⟨hne, hnd2⟩ := hnd
    by_cases hk : e.1 = k
    · have ht : t.filter (fun e2 => decide (e2.1 = k)) = [] := by
        rw [List.filter_eq_nil_iff]
        intro a ha
        simp only [decide_eq_true_eq]
        intro hak
        apply hne
        have : a.1 ∈ t.map Prod.fst := List.mem_map_of_mem Prod.fst ha
        rw [hak, ← hk] at this
        exact this
      simp [List.filter_cons, hk, ht]
    · simp only [List.filter_cons, decide_eq_true_eq, if_neg hk]
      exact ih hnd2

theorem perm_eq_of_short {γ : Type} {l l2 : List γ} (hperm : l.Perm l2)
    (hlen : l.length ≤ 1) : l = l2 := by
  match l, hlen with
  | [], _ =>
    exact (List.Perm.nil_eq hperm)
  | [a], _ =>
    exact List.singleton_perm.mp hperm

/-- Looking a pair up in any reordering of a registration list with distinct
keys gives the same result as in the original list. -/
theorem lookupJac_perm {l l2 : List ((OutKey × InKey) × Jac)} (hperm : l.Perm l2)
    (hnd : (l.map Prod.fst).Nodup) (k : OutKey × InKey) :
    lookupJac l2 k = lookupJac l k := by
  unfold lookupJac
  rw [perm_eq_of_short (hperm.filter (fun e => decide (e.1 = k)))
    (filter_key_length_le_one l hnd k)]

theorem assignments_keys_nodup (p : Params) (x : Inputs) :
    ((assignments p x).map Prod.fst).Nodup := by
  have h : (assignments p x).map Prod.fst = allPairs := by
    simp [assignments, Function.comp_def]
  rw [h]
  decide

/-! Control-point interpolator (spec section 4.1).  The interpolator itself
is part of the design-variable layer that is not among the source files; the
usecase fixes nb_poles = 8 (usecase.py line 70). -/

/-- Clamp a rational to an interval. -/
def clampQ (lo hi x : ℚ) : ℚ := max lo (min hi x)

/-- Index of the interpolation segment a scaled coordinate falls in. -/
def segIdx (P : ℕ) (u : ℚ) : ℕ := min (Int.toNat ⌊u⌋) (P - 2)

/-- Modelled from the spec: the pole-space coordinate of a year, clamped to
the pole range so that extrapolation holds the nearest pole (spec section
4.1). -/
def scaledCoord (P N : ℕ) (t : ℚ) : ℚ :=
  clampQ 0 ((P - 1 : ℕ) : ℚ) (t * ((P - 1 : ℕ) : ℚ) / ((N - 1 : ℕ) : ℚ))

/-- Modelled from the spec: piecewise-linear interpolation of a control
vector, evaluated at an arbitrary rational year coordinate (spec section
4.1). -/
def interpAtQ (P N : ℕ) (C : ℕ → ℚ) (t : ℚ) : ℚ :=
  let u := scaledCoord P N t
  let i := segIdx P u
  C i + (u - (i : ℚ)) * (C (i + 1) - C i)

/-- Modelled from the spec: the InterpolationMap entry for year coordinate t
and pole index p (spec section 4.1). -/
def interpMapQ (P N : ℕ) (t : ℚ) (q : ℕ) : ℚ :=
  let u := scaledCoord P N t
  let i := segIdx P u
  if q = i then 1 - (u - (i : ℚ)) else if q = i + 1 then u - (i : ℚ) else 0

/-- The expanded YearSeries: the interpolant sampled at the integer years. -/
def interpSeries (P N : ℕ) (C : ℕ → ℚ) (t : ℕ) : ℚ := interpAtQ P N C (t : ℚ)

/-- The InterpolationMap restricted to integer years. -/
def interpMap (P N : ℕ) (t : ℕ) (q : ℕ) : ℚ := interpMapQ P N (t : ℚ) q

/-- The year index of pole q under even spacing. -/
def poleYear (P N q : ℕ) : ℕ := q * (N - 1) / (P - 1)

/-- The interpolated value is the matrix-vector product of the interpolation
map with the control vector. -/
theorem interpAtQ_eq_sum (P N : ℕ) (hP : 2 ≤ P) (C : ℕ → ℚ) (t : ℚ) :
    interpAtQ P N C t = (Finset.range P).sum (fun q => interpMapQ P N t q * C q) := by
  unfold interpAtQ interpMapQ
  set u := scaledCoord P N t with hu
  set i := segIdx P u with hi
  have hiP : i ≤ P - 2 := min_le_right _ _
  have hi1 : i < P := by omega
  have hi2 : i + 1 < P := by omega
  have hne : i ≠ i + 1 := by omega
  have hsplit : ∀ q,
      (if q = i then 1 - (u - (i : ℚ)) else if q = i + 1 then u - (i : ℚ) else 0) * C q =
        (if q = i then (1 - (u - (i : ℚ))) * C q else 0) +
          (if q = i + 1 then (u - (i : ℚ)) * C q else 0) := by
    intro q
    by_cases h1 : q = i
    · subst h1
      rw [if_pos rfl, if_pos rfl, if_neg hne]
      ring
    · rw [if_neg h1, if_neg h1]
      by_cases h2 : q = i + 1
      · rw [if_pos h2, if_pos h2]
        ring
      · rw [if_neg h2, if_neg h2]
        ring
  rw [Finset.sum_congr rfl (fun q _ => hsplit q), Finset.sum_add_distrib,
    Finset.sum_ite_eq' (Finset.range P) i (fun q => (1 - (u - (i : ℚ))) * C q),
    Finset.sum_ite_eq' (Finset.range P) (i + 1) (fun q => (u - (i : ℚ)) * C q),
    if_pos (Finset.mem_range.mpr hi1), if_pos (Finset.mem_range.mpr hi2)]
  ring

/-- Sampling the interpolant at a pole year returns that pole value. -/
theorem interp_roundtrip (P N : ℕ) (hP : 2 ≤ P) (hN : 2 ≤ N)
    (hdvd : (P - 1) ∣ (N - 1)) (C : ℕ → ℚ) (q : ℕ) (hq : q < P) :
    interpSeries P N C (poleYear P N q) = C q := by
  have hpQ : ((P - 1 : ℕ) : ℚ) ≠ 0 := Nat.cast_ne_zero.mpr (by omega)
  have hnQ : ((N - 1 : ℕ) : ℚ) ≠ 0 := Nat.cast_ne_zero.mpr (by omega)
  have hcast : ((poleYear P N q : ℕ) : ℚ) =
      (q : ℚ) * ((N - 1 : ℕ) : ℚ) / ((P - 1 : ℕ) : ℚ) := by
    unfold poleYear
    rw [Nat.cast_div (Dvd.dvd.mul_left hdvd q) hpQ]
    push_cast
    ring
  have hu : scaledCoord P N ((poleYear P N q : ℕ) : ℚ) = (q : ℚ) := by
    unfold scaledCoord
    rw [hcast]
    have harg : (q : ℚ) * ((N - 1 : ℕ) : ℚ) / ((P - 1 : ℕ) : ℚ) * ((P - 1 : ℕ) : ℚ) /
        ((N - 1 : ℕ) : ℚ) = (q : ℚ) := by
      rw [div_mul_cancel₀ _ hpQ, mul_div_cancel_right₀ _ hnQ]
    rw [harg]
    unfold clampQ
    rw [min_eq_right (Nat.cast_le.mpr (by omega : q ≤ P - 1)),
      max_eq_right (Nat.cast_nonneg q)]
  have hseg : segIdx P ((q : ℕ) : ℚ) = min q (P - 2) := by
    unfold segIdx
    rw [Int.floor_natCast, Int.toNat_natCast]
  simp only [interpSeries, interpAtQ]
  rw [hu, hseg]
  by_cases hle : q ≤ P - 2
  · rw [min_eq_left hle]
    simp
  · have hq2 : q = P - 1 := by omega
    rw [min_eq_right (by omega)]
    have h1 : (q : ℚ) - ((P - 2 : ℕ) : ℚ) = 1 := by
      rw [hq2, Nat.cast_sub (by omega : 1 ≤ P), Nat.cast_sub (by omega : 2 ≤ P)]
      push_cast
      ring
    rw [show P - 2 + 1 = q by omega, h1]
    ring

/-- Add e to a series at one year, leaving every other year unchanged. -/
def bumpAt (f : Series) (j : ℕ) (e : ℚ) : Series := fun k => if k = j then f k + e else f k

/-- Additional deforestation investment e in year j. -/
def bumpDef (x : Inputs) (j : ℕ) (e : ℚ) : Inputs := { x with invDef := bumpAt x.invDef j e }

/-- Additional managed wood investment e in year j. -/
def bumpMw (x : Inputs) (j : ℕ) (e : ℚ) : Inputs := { x with invMw := bumpAt x.invMw j e }

theorem cumDemand_bumpAt (f : Series) (c : ℚ) (j : ℕ) (e : ℚ) (t : ℕ) :
    cumDemand (bumpAt f j e) c t = cumDemand f c t + (if j ≤ t then e / c else 0) := by
  unfold cumDemand bumpAt
  have hterm : ∀ k, (if k = j then f k + e else f k) / c =
      f k / c + (if k = j then e / c else 0) := by
    intro k
    by_cases h : k = j
    · simp [h, add_div]
    · simp [h]
  rw [Finset.sum_congr rfl (fun k _ => hterm k), Finset.sum_add_distrib,
    Finset.sum_ite_eq' (Finset.range (t + 1)) j (fun _ => e / c)]
  congr 1
  by_cases h : j ≤ t
  · rw [if_pos (Finset.mem_range.mpr (by omega)), if_pos h]
  · rw [if_neg (fun hmem => h (Nat.lt_succ_iff.mp (Finset.mem_range.mp hmem))), if_neg h]

/-- Past an exhaustion year, the exact cumulative deforestation sensitivity
has an identically zero column. -/
theorem dDefCumJac_col_zero (p : Params) (x : Inputs) (hc : 0 < p.cDef)
    (hinv : ∀ k, 0 ≤ x.invDef k) {Y0 : ℕ}
    (hex : p.U0 ≤ cumDemand x.invDef p.cDef Y0) {y : ℕ} (hy : Y0 < y) (o : ℕ) :
    dDefCumJac p x o y = 0 := by
  unfold dDefCumJac
  rw [if_neg]
  intro hcon
  obtain ⟨h1, h2⟩ := hcon
  have h3 : cumDemand x.invDef p.cDef Y0 ≤ cumDemand x.invDef p.cDef o :=
    cumDemand_mono x.invDef p.cDef hc hinv (by omega)
  linarith

/-- The example of spec section 8: deforestation cost 8000 dollars per
hectare, initial unmanaged stock 1.0, every other constant at its
forest_disc.py default. -/
def exampleParams : Params :=
  { U0 := 1
    P0 := 84 / 100
    M0 := 115 / 100
    cDef := 8000
    cRef := 13800
    cMw := 13047
    delay := construction_delay
    co2PerHa := 4000
    rhoMw := 1
    rhoDef := 1
    calVal := 336 / 1000
    co2Ratio := 1
    sfProd := 1000
    sfCons := 1000
    defaultPrice := 100
    priceMw := 100
    priceDef := 100
    transport := 76 / 10
    margin := 110
    lcDefCap := 1
    lcRefCap := 1
    lcMwCap := 1 }

/-- The example inputs of spec section 8: constant deforestation investment
of 10 per year, zero reforestation and managed wood investment. -/
def exampleInputs : Inputs :=
  { invDef := fun _ => 10
    invRef := fun _ => 0
    invMw := fun _ => 0
    prehist := fun _ => 0 }

/-- Inputs whose deforestation investment exhausts the example unmanaged
stock in the very first year. -/
def satInputs : Inputs :=
  { invDef := fun _ => 8000
    invRef := fun _ => 0
    invMw := fun _ => 0
    prehist := fun _ => 0 }

/-- All-zero inputs. -/
def zeroInputs : Inputs :=
  { invDef := fun _ => 0
    invRef := fun _ => 0
    invMw := fun _ => 0
    prehist := fun _ => 0 }

theorem exampleCumDemand (t : ℕ) :
    cumDemand exampleInputs.invDef exampleParams.cDef t = ((t : ℚ) + 1) * (10 / 8000) := by
  unfold cumDemand exampleInputs exampleParams
  simp only [Finset.sum_const, Finset.card_range, nsmul_eq_mul]
  push_cast
  ring

/-- Claim C2: for every year of the horizon the computed global forest
surface equals unmanaged + protected + managed wood cumulative + reforested
cumulative minus deforested cumulative, and every forward step of the state
machine preserves this identity. -/
theorem claim_C2_conservation (p : Params) (x : Inputs) (t : ℕ) :
    (surfaceAt p x t).globalArea =
      (surfaceAt p x t).unmanagedArea + (surfaceAt p x t).protectedArea +
        (surfaceAt p x t).managedWood + (surfaceAt p x t).reforested -
        (surfaceAt p x t).deforested := by
  induction t with
  | zero =>
    simp only [surfaceAt, stepState, initState]
    ring
  | succ t ih =>
    simp only [surfaceAt, stepState]
    rw [ih]
    ring

/-- Claim C1: once the deforestation investment series has exhausted the
unmanaged stock by year Y0, additional deforestation investment in any later
year y produces zero additional deforested surface, and the registered
Jacobian column of every surface output with respect to deforestation
investment in year y is identically zero. -/
theorem claim_C1_saturation (p : Params) (x : Inputs)
    (hc : 0 < p.cDef) (hinv : ∀ k, 0 ≤ x.invDef k) (Y0 : ℕ)
    (hex : p.U0 ≤ cumDemand x.invDef p.cDef Y0) (y : ℕ) (hy : Y0 < y) :
    (∀ e : ℚ, 0 ≤ e → ∀ t : ℕ, defCum p (bumpDef x y e) t = defCum p x t) ∧
    (∀ k : OutKey,
      k = OutKey.globalForestSurface ∨ k = OutKey.forestConstraintEvolution ∨
        k = OutKey.landUseForest →
      ∀ o : ℕ, jacTable p x k InKey.defInvest o y = 0) := by
  constructor
  · intro e he t
    unfold defCum bumpDef
    show min (cumDemand (bumpAt x.invDef y e) p.cDef t) p.U0 = _
    rw [cumDemand_bumpAt]
    by_cases h : y ≤ t
    · rw [if_pos h]
      have h1 : p.U0 ≤ cumDemand x.invDef p.cDef t :=
        le_trans hex (cumDemand_mono x.invDef p.cDef hc hinv (by omega))
      have h2 : 0 ≤ e / p.cDef := div_nonneg he hc.le
      rw [min_eq_right h1, min_eq_right (by linarith)]
    · rw [if_neg h, add_zero]
  · intro k hk o
    have hcol := dDefCumJac_col_zero p x hc hinv hex hy
    rcases hk with h | h | h <;> subst h
    · show addJac (d_cum_mw_surface_d p x InKey.defInvest) (d_cum_umw_d p x InKey.defInvest) o y = 0
      simp only [addJac, d_cum_mw_surface_d, d_delta_mw_d, d_cum_umw_d, d_cum, smulJac, zeroJac]
      rw [Finset.sum_const, smul_zero, hcol o]
      ring
    · show d_forest_constraint_d p x InKey.defInvest o y = 0
      simp only [d_forest_constraint_d, d_cum_deforestation_surface_d, d_delta_deforestation_d]
      rw [d_cum_dDeltaDefJac p x hc hinv]
      exact hcol o
    · show d_cum_mw_surface_d p x InKey.defInvest o y = 0
      simp only [d_cum_mw_surface_d, d_delta_mw_d, d_cum, zeroJac]
      rw [Finset.sum_const, smul_zero]

/-- Claim C1 witness: with the 8000-per-year investment the stock of 1.0 is
exhausted in year 0, and the global surface Jacobian entry (5, 1) is zero. -/
theorem claim_C1_saturation_witness :
    ((0 : ℚ) < exampleParams.cDef ∧ (∀ k : ℕ, (0 : ℚ) ≤ satInputs.invDef k) ∧
      exampleParams.U0 ≤ cumDemand satInputs.invDef exampleParams.cDef 0 ∧ 0 < 1) ∧
    jacTable exampleParams satInputs OutKey.globalForestSurface InKey.defInvest 5 1 = 0 :=
  ⟨⟨by norm_num [exampleParams], fun k => by norm_num [satInputs],
      by norm_num [cumDemand, satInputs, exampleParams, Finset.sum_range_one], by norm_num⟩,
    (claim_C1_saturation exampleParams satInputs (by norm_num [exampleParams])
        (fun k => by norm_num [satInputs]) 0
        (by norm_num [cumDemand, satInputs, exampleParams, Finset.sum_range_one]) 1
        (by norm_num)).2 OutKey.globalForestSurface (Or.inl rfl) 5⟩

/-- Claim C3: every Jacobian registered by compute_sos_jacobian is lower
triangular in year indices: the entry (y_out, y_in) vanishes whenever y_in
is later than y_out. -/
theorem claim_C3_causality (p : Params) (x : Inputs) (k : OutKey) (i : InKey) :
    LowerTri (jacTable p x k i) := by
  cases k <;> cases i <;>
    simp only [jacTable, d_cum_mw_surface_d, d_cum_umw_d, d_forest_constraint_d,
      d_cum_deforestation_surface_d, d_cum_reforestation_surface_d_reforestation_invest,
      compute_d_CO2_land_emission, compute_d_techno_prod_d_invest,
      compute_d_techno_conso_d_invest, compute_d_techno_price_d_invest,
      d_delta_mw_d, d_delta_deforestation_d, d_lc_deforestation_d, d_lc_reforestation_d,
      d_lc_mw_d, d_mw_surface_d_invest, d_reforestation_surface_d_invest] <;>
    repeat
      first
      | apply lowerTri_add
      | apply lowerTri_smul
      | apply lowerTri_div
      | apply lowerTri_diagWeight
      | apply lowerTri_d_cum
      | exact lowerTri_zero
      | exact lowerTri_diag _
      | exact lowerTri_shiftDiag _ _
      | exact lowerTri_dDefCumJac p x
      | exact lowerTri_dDeltaDefJac p x

/-- Claim C3 witness: the price Jacobian with respect to managed wood
investment vanishes at output year 0, input year 1. -/
theorem claim_C3_causality_witness :
    (0 : ℕ) < 1 ∧
      jacTable exampleParams exampleInputs OutKey.technoPricesForest InKey.mwInvest 0 1 = 0 :=
  ⟨Nat.zero_lt_one,
    claim_C3_causality exampleParams exampleInputs OutKey.technoPricesForest InKey.mwInvest 0 1
      Nat.zero_lt_one⟩

/-- Claim C4: with the example constants (11-year horizon 2020-2030,
constant deforestation investment 10, cost 8000 per hectare, initial
unmanaged stock 1.0) the deforested cumulative series starts at 10/8000,
equals the saturated linear ramp min((t+1)*10/8000, 1) in every year, grows
by exactly 10/8000 per year while below 1.0, holds 1.0 once reached, and the
deforestation Jacobian rows and columns for years at or past the saturation
year 799 are zero (within the 11-year horizon saturation is never
reached). -/
theorem claim_C4_example :
    (surfaceAt exampleParams exampleInputs 0).deforested = 10 / 8000 ∧
    (∀ t : ℕ, (surfaceAt exampleParams exampleInputs t).deforested =
        min (((t : ℚ) + 1) * (10 / 8000)) 1) ∧
    (∀ t : ℕ, t ≤ 10 → (surfaceAt exampleParams exampleInputs t).deforested =
        ((t : ℚ) + 1) * (10 / 8000)) ∧
    (∀ t : ℕ, ((t : ℚ) + 2) * (10 / 8000) ≤ 1 →
        (surfaceAt exampleParams exampleInputs (t + 1)).deforested =
          (surfaceAt exampleParams exampleInputs t).deforested + 10 / 8000) ∧
    (∀ t : ℕ, 1 ≤ ((t : ℚ) + 1) * (10 / 8000) →
        (surfaceAt exampleParams exampleInputs t).deforested = 1) ∧
    (∀ o i : ℕ, 799 ≤ o →
        jacTable exampleParams exampleInputs OutKey.forestConstraintEvolution InKey.defInvest o i
          = 0) ∧
    (∀ o i : ℕ, 799 ≤ i →
        jacTable exampleParams exampleInputs OutKey.forestConstraintEvolution InKey.defInvest o i
          = 0) := by
  have hc : (0 : ℚ) < exampleParams.cDef := by norm_num [exampleParams]
  have hinv : ∀ k, (0 : ℚ) ≤ exampleInputs.invDef k := fun k => by norm_num [exampleInputs]
  have hbr : ∀ t, (surfaceAt exampleParams exampleInputs t).deforested =
      min (((t : ℚ) + 1) * (10 / 8000)) 1 := by
    intro t
    rw [(surfaceAt_deforested_eq exampleParams exampleInputs hc hinv t).1]
    unfold defCum
    rw [exampleCumDemand]
    rfl
  have hjac : ∀ o i : ℕ,
      jacTable exampleParams exampleInputs OutKey.forestConstraintEvolution InKey.defInvest o i =
        dDefCumJac exampleParams exampleInputs o i := by
    intro o i
    show d_forest_constraint_d exampleParams exampleInputs InKey.defInvest o i = _
    simp only [d_forest_constraint_d, d_cum_deforestation_surface_d, d_delta_deforestation_d]
    rw [d_cum_dDeltaDefJac exampleParams exampleInputs hc hinv]
  have hsat : ∀ o : ℕ, 799 ≤ o →
      ¬ cumDemand exampleInputs.invDef exampleParams.cDef o < exampleParams.U0 := by
    intro o ho
    rw [exampleCumDemand]
    have hcast : (799 : ℚ) ≤ (o : ℚ) := by exact_mod_cast ho
    show ¬ ((o : ℚ) + 1) * (10 / 8000) < exampleParams.U0
    have : exampleParams.U0 = 1 := rfl
    rw [this]
    push_neg
    linarith
  refine ⟨?_, hbr, ?_, ?_, ?_, ?_, ?_⟩
  · rw [hbr 0]
    norm_num
  · intro t ht
    rw [hbr t]
    have hcast : (t : ℚ) ≤ 10 := by exact_mod_cast ht
    rw [min_eq_left (by linarith)]
  · intro t hle
    have h1 : ((t : ℚ) + 1) * (10 / 8000) ≤ 1 := by
      have : (0 : ℚ) ≤ (t : ℚ) := Nat.cast_nonneg t
      linarith
    rw [hbr t, hbr (t + 1), min_eq_left h1]
    rw [min_eq_left (by push_cast; linarith)]
    push_cast
    ring
  · intro t hge
    rw [hbr t, min_eq_right hge]
  · intro o i ho
    rw [hjac o i]
    unfold dDefCumJac
    rw [if_neg]
    intro hcon
    exact hsat o ho hcon.2
  · intro o i hi
    rw [hjac o i]
    unfold dDefCumJac
    rw [if_neg]
    intro hcon
    exact hsat o (le_trans hi hcon.1) hcon.2

/-- Claim C4 witness: within the horizon, year 1 of the example adds exactly
10/8000 to the deforested cumulative surface. -/
theorem claim_C4_example_witness :
    ((0 : ℚ) + 2) * (10 / 8000) ≤ 1 ∧
      (surfaceAt exampleParams exampleInputs 1).deforested =
        (surfaceAt exampleParams exampleInputs 0).deforested + 10 / 8000 :=
  ⟨by norm_num, claim_C4_example.2.2.2.1 0 (by norm_num)⟩

/-- Claim C5: the biomass mass produced from managed wood in a year depends
only on the managed wood investment committed construction_delay years
earlier, never on the current year investment; during the first
construction_delay years it is derived solely from the pre-horizon
investment history, whose declared length equals construction_delay. -/
theorem claim_C5_construction_delay (p : Params) (x1 x2 : Inputs) :
    (∀ y : ℕ, p.delay ≤ y → x1.invMw (y - p.delay) = x2.invMw (y - p.delay) →
        mwMass p x1 y = mwMass p x2 y) ∧
    (∀ y : ℕ, y < p.delay → x1.prehist y = x2.prehist y →
        mwMass p x1 y = mwMass p x2 y) ∧
    (1 ≤ p.delay → ∀ y : ℕ, ∀ e : ℚ, mwMass p (bumpMw x1 y e) y = mwMass p x1 y) ∧
    invest_before_year_start.length = construction_delay := by
  refine ⟨?_, ?_, ?_, rfl⟩
  · intro y hy h
    unfold mwMass mwDelta
    rw [if_neg (by omega), if_neg (by omega), h]
  · intro y hy h
    unfold mwMass mwDelta
    rw [if_pos hy, if_pos hy]
    show p.rhoMw * (x1.prehist y / p.cMw) = _
    rw [h]
  · intro hd y e
    unfold mwMass mwDelta bumpMw bumpAt
    by_cases hy : y < p.delay
    · rw [if_pos hy, if_pos hy]
    · rw [if_neg hy, if_neg hy]
      have hne : y - p.delay ≠ y := by omega
      simp only [hne, if_false]

/-- Claim C5 witness: with equal managed wood investments three years
before, year 5 produces the same mass under the two example input sets. -/
theorem claim_C5_construction_delay_witness :
    (exampleParams.delay ≤ 5 ∧
      exampleInputs.invMw (5 - exampleParams.delay) = satInputs.invMw (5 - exampleParams.delay)) ∧
    mwMass exampleParams exampleInputs 5 = mwMass exampleParams satInputs 5 :=
  ⟨⟨by norm_num [exampleParams, construction_delay], rfl⟩,
    (claim_C5_construction_delay exampleParams exampleInputs satInputs).1 5
      (by norm_num [exampleParams, construction_delay]) rfl⟩

/-- Claim C6: a year whose total biomass mass is zero reuses the previous
year price, and a zero-mass first year falls back to the configured default;
the price function is total, so no domain error can arise. -/
theorem claim_C6_price_continuity (p : Params) (x : Inputs) :
    (totalMass p x 0 = 0 → priceSeries p x 0 = p.defaultPrice) ∧
    (∀ y : ℕ, totalMass p x (y + 1) = 0 → priceSeries p x (y + 1) = priceSeries p x y) := by
  constructor
  · intro h
    unfold priceSeries
    rw [if_pos h]
  · intro y h
    show (if totalMass p x (y + 1) = 0 then priceSeries p x y else _) = priceSeries p x y
    rw [if_pos h]

/-- Claim C6 witness: with all-zero inputs the first year has zero total
mass and the computed price is the configured default. -/
theorem claim_C6_price_continuity_witness :
    totalMass exampleParams zeroInputs 0 = 0 ∧
      priceSeries exampleParams zeroInputs 0 = exampleParams.defaultPrice := by
  have h0 : totalMass exampleParams zeroInputs 0 = 0 := by
    unfold totalMass mwDelta deltaDef defCum cumDemand
    norm_num [zeroInputs, exampleParams, Finset.sum_range_one]
  exact ⟨h0, (claim_C6_price_continuity exampleParams zeroInputs).1 h0⟩

/-- Claim C7: for a control vector with at least two poles and a horizon
consistent with the pole spacing, the expanded year series is exactly the
interpolation map applied to the control vector, and sampling the series at
the pole years reproduces the control vector. -/
theorem claim_C7_interpolation (P N : ℕ) (C : ℕ → ℚ) (hP : 2 ≤ P) (hN : 2 ≤ N)
    (hdvd : (P - 1) ∣ (N - 1)) :
    (∀ t : ℕ, interpSeries P N C t = (Finset.range P).sum (fun q => interpMap P N t q * C q)) ∧
    (∀ q : ℕ, q < P → interpSeries P N C (poleYear P N q) = C q) :=
  ⟨fun t => interpAtQ_eq_sum P N hP C (t : ℚ),
    fun q hq => interp_roundtrip P N hP hN hdvd C q hq⟩

/-- Claim C7 witness: with two poles over a three-year horizon, sampling at
the second pole year returns the second control value. -/
theorem claim_C7_interpolation_witness :
    (2 ≤ 2 ∧ 2 ≤ 3 ∧ (2 - 1) ∣ (3 - 1) ∧ 1 < 2) ∧
      interpSeries 2 3 (fun q => (q : ℚ) + 5) (poleYear 2 3 1) = (1 : ℚ) + 5 :=
  ⟨⟨le_refl 2, by norm_num, by norm_num, by norm_num⟩,
    (claim_C7_interpolation 2 3 (fun q => (q : ℚ) + 5) (le_refl 2) (by norm_num)
        (by norm_num)).2 1 (by norm_num)⟩

/-- Claim C8: the whole invocation is a pure function of the complete input
series, so identical inputs give identical outputs and Jacobians, and
looking up any (output, input) pair is invariant under any reordering of the
Jacobian registrations. -/
theorem claim_C8_stateless_determinism (p1 : Params) (x1 : Inputs) (p2 : Params)
    (x2 : Inputs) (hp : p1 = p2) (hx : x1 = x2) :
    runModel p1 x1 = runModel p2 x2 ∧
      ∀ l, (assignments p1 x1).Perm l →
        ∀ k, lookupJac l k = lookupJac (assignments p1 x1) k := by
  constructor
  · rw [hp, hx]
  · intro l hl k
    exact lookupJac_perm hl (assignments_keys_nodup p1 x1) k

/-- Claim C8 witness: looking up the price Jacobian in the reversed
registration list gives the same result as in the original list. -/
theorem claim_C8_stateless_determinism_witness :
    lookupJac (assignments exampleParams exampleInputs).reverse
        (OutKey.technoPricesForest, InKey.mwInvest) =
      lookupJac (assignments exampleParams exampleInputs)
        (OutKey.technoPricesForest, InKey.mwInvest) :=
  (claim_C8_stateless_determinism exampleParams exampleInputs exampleParams exampleInputs
      rfl rfl).2 (assignments exampleParams exampleInputs).reverse
    (List.reverse_perm (assignments exampleParams exampleInputs)).symm
    (OutKey.technoPricesForest, InKey.mwInvest)

/-- Claim C9: for each of the three investment inputs, the Jacobian
registered for the techno_consumption_woratio CO2 column equals the one
registered for the techno_consumption CO2 column, and the Jacobian for the
techno_prices Forest_wotaxes column equals the one for the Forest column. -/
theorem claim_C9_duplicate_jacobians (p : Params) (x : Inputs) (i : InKey) :
    jacTable p x OutKey.technoConsumptionWoratioCO2 i =
        jacTable p x OutKey.technoConsumptionCO2 i ∧
      jacTable p x OutKey.technoPricesForestWotaxes i =
        jacTable p x OutKey.technoPricesForest i :=
  ⟨rfl, rfl⟩

/-- Claim C10: the stored techno production and consumption are the model
series divided by their scaling factors, the registered Jacobians are the
model Jacobians divided by the same factors, and the registered production
Jacobian is exactly the derivative of the scaled output with respect to
managed wood investment. -/
theorem claim_C10_scaling (p : Params) (x : Inputs) (hprod : p.sfProd ≠ 0)
    (hcons : p.sfCons ≠ 0) :
    (∀ y : ℕ, storedTechnoProduction p x y * p.sfProd = technoProductionModel p x y) ∧
    (∀ y : ℕ, storedTechnoConsumption p x y * p.sfCons = technoConsumptionModel p x y) ∧
    (∀ y : ℕ, storedTechnoConsumptionWoratio p x y = storedTechnoConsumption p x y) ∧
    (∀ i : InKey, ∀ o j : ℕ,
      jacTable p x OutKey.technoProductionBiomass i o j * p.sfProd =
          compute_d_techno_prod_d_invest p (d_delta_mw_d p x i)
            (d_delta_deforestation_d p x i) o j ∧
        jacTable p x OutKey.technoConsumptionCO2 i o j * p.sfCons =
          compute_d_techno_conso_d_invest p (compute_d_techno_prod_d_invest p
            (d_delta_mw_d p x i) (d_delta_deforestation_d p x i)) o j) ∧
    (∀ j : ℕ, ∀ e : ℚ, ∀ o : ℕ,
      storedTechnoProduction p (bumpMw x j e) o - storedTechnoProduction p x o =
        e * jacTable p x OutKey.technoProductionBiomass InKey.mwInvest o j) := by
  refine ⟨?_, ?_, ?_, ?_, ?_⟩
  · intro y
    unfold storedTechnoProduction
    rw [div_mul_cancel₀ _ hprod]
  · intro y
    unfold storedTechnoConsumption
    rw [div_mul_cancel₀ _ hcons]
  · intro y
    rfl
  · intro i o j
    constructor
    · show divJac (compute_d_techno_prod_d_invest p (d_delta_mw_d p x i)
        (d_delta_deforestation_d p x i)) p.sfProd o j * p.sfProd = _
      unfold divJac
      rw [div_mul_cancel₀ _ hprod]
    · show divJac (compute_d_techno_conso_d_invest p (compute_d_techno_prod_d_invest p
        (d_delta_mw_d p x i) (d_delta_deforestation_d p x i))) p.sfCons o j * p.sfCons = _
      unfold divJac
      rw [div_mul_cancel₀ _ hcons]
  · intro j e o
    unfold storedTechnoProduction
    rw [div_sub_div_same]
    have hdd : deltaDef p (bumpMw x j e) o = deltaDef p x o := rfl
    unfold technoProductionModel
    rw [hdd]
    simp only [jacTable, d_delta_mw_d, d_delta_deforestation_d, divJac,
      compute_d_techno_prod_d_invest, addJac, smulJac, d_mw_surface_d_invest, shiftDiag,
      zeroJac, mwDelta, bumpMw, bumpAt]
    by_cases hy : o < p.delay
    · have hne : ¬ j + p.delay = o := by omega
      simp only [if_pos hy, if_neg hne]
      ring
    · simp only [if_neg hy]
      by_cases heq : o - p.delay = j
      · have hpos : j + p.delay = o := by omega
        simp only [if_pos heq, if_pos hpos]
        ring
      · have hne2 : ¬ j + p.delay = o := by omega
        simp only [if_neg heq, if_neg hne2]
        ring

/-- Claim C10 witness: with the default scaling factors of 1000, the
woratio consumption output coincides with the scaled consumption output. -/
theorem claim_C10_scaling_witness :
    (exampleParams.sfProd ≠ 0 ∧ exampleParams.sfCons ≠ 0) ∧
      storedTechnoConsumptionWoratio exampleParams exampleInputs 0 =
        storedTechnoConsumption exampleParams exampleInputs 0 :=
  ⟨⟨by norm_num [exampleParams], by norm_num [exampleParams]⟩,
    (claim_C10_scaling exampleParams exampleInputs (by norm_num [exampleParams])
        (by norm_num [exampleParams])).2.2.1 0⟩

end WitnessForest
